import Mathlib

/-!
Shallow embedding of the dwopt SQL query composition engine.

The definitions below are translated from the repository source:

* `_qry.py` : the `_Qry` class — the query fragment set, the clause
  normalizer `_args2str`, the renderer `_make_cls` / `_make_qry`, the
  clause-setting operations, the two-phase composer `str`, and the
  dialect-specific `head` / `top` summary queries.
* `dbo.py` : the `_Db._bind_mods` placeholder substitution.

Python strings are modelled as `String`, optional fields as `Option String`,
and a `TypeError` raised by `str.join` or by `case` as `Except Unit`.
Python object identity (needed for the immutability claim) is modelled by an
explicit store: a list of records addressed by position.
-/

/-- Dialect of the database operator, set in the constructor of `_Db`
from the engine name: postgresql, sqlite or oracle. -/
inductive Dialect where
  | pg
  | lt
  | oc
deriving DecidableEq, Repr

/-- Argument of a clause-setting operation: either a single string or a
sequence of strings, per the documented domain of `_Qry._args2str`. -/
inductive Arg where
  | str (s : String)
  | ls (l : List String)
deriving DecidableEq, Repr

/-- Fragment set, mirroring the fields of `_Qry.__init__`. The dialect of
the attached operator object is carried in the record, as in the spec data
model. The Python field `_where` is written `where_`. -/
structure Qry where
  from_ : Option String
  select : Option String
  join : Option String
  where_ : Option String
  group_by : Option String
  having : Option String
  order_by : Option String
  sql : Option String
  dialect : Dialect
deriving DecidableEq, Repr

/-- Fragment set with no field set, generic dialect. -/
def qryDefault : Qry :=
  ⟨none, none, none, none, none, none, none, none, Dialect.pg⟩

/-- Check that a character list begins with the given pattern. -/
def startsWithL : List Char → List Char → Bool
  | _, [] => true
  | [], _ :: _ => false
  | c :: cs, p :: ps => c == p && startsWithL cs ps

/-- Fuel-driven scanner behind `pyReplace`: replaces non-overlapping
occurrences of `pat` left to right, continuing after each replacement, as
Python `str.replace` does. Fuel at least the length of the text makes the
zero-fuel arm unreachable, since every step consumes at least one
character. -/
def replaceFuel (pat rep : List Char) : Nat → List Char → List Char
  | _, [] => []
  | 0, l => l
  | fuel + 1, c :: rest =>
    if pat.length > 0 && startsWithL (c :: rest) pat then
      rep ++ replaceFuel pat rep fuel (rest.drop (pat.length - 1))
    else
      c :: replaceFuel pat rep fuel rest

/-- Model of Python `s.replace(pat, rep)`. -/
def pyReplace (s pat rep : String) : String :=
  ⟨replaceFuel pat.data rep.data s.data.length s.data⟩

/-- Helper for `args2str`: Python `sep.join(args)` succeeds on a tuple of
two or more arguments only when every argument is a string. -/
def allStrs : List Arg → Option (List String)
  | [] => some []
  | Arg.str s :: rest => (allStrs rest).map fun l => s :: l
  | Arg.ls _ :: _ => none

/-- Model of `_Qry._args2str`: zero arguments give `None`; a single string
argument is returned unchanged; a single sequence argument is joined with
the separator; two or more arguments are joined with the separator, which
raises `TypeError` when one of them is not a string. -/
def args2str (args : List Arg) (sep : String) : Except Unit (Option String) :=
  match args with
  | [] => Except.ok none
  | [Arg.str s] => Except.ok (some s)
  | [Arg.ls l] => Except.ok (some (String.intercalate sep l))
  | _ =>
    match allStrs args with
    | some ss => Except.ok (some (String.intercalate sep ss))
    | none => Except.error ()

/-- Model of `_Qry._make_cls`: keyword plus payload when the payload is
set, the `na` fallback otherwise. -/
def makeCls (key : String) (load : Option String) (na : String) : String :=
  match load with
  | some l => key ++ l
  | none => na

/-- Model of `_Qry._make_qry`: the raw sql override wins outright;
otherwise the clause fragments are assembled, and under the oracle dialect
every occurrence of the word select in the assembled text is rewritten
with a parallel hint. -/
def makeQry (q : Qry) : String :=
  match q.sql with
  | some s => s
  | none =>
    let select := makeCls "select " q.select "select *"
    let from_ := makeCls "from " q.from_ "from test"
    let join := makeCls "\n" q.join ""
    let whereCls := makeCls "\nwhere " q.where_ ""
    let group_by := makeCls "\ngroup by " q.group_by ""
    let having := makeCls "\nhaving " q.having ""
    let order_by := makeCls "\norder by " q.order_by ""
    let txt := select ++ (if select = "select *" then " " else "\n") ++ from_
      ++ join ++ whereCls ++ group_by ++ having ++ order_by
    if q.dialect = Dialect.oc then
      pyReplace txt "select" "select /*+PARALLEL (4)*/"
    else
      txt

/-- Model of `_Qry.from_`. -/
def from_Q (q : Qry) (f : String) : Qry :=
  { q with from_ := some f }

/-- Model of `_Qry.select` with explicit separator (Python default is a
comma). -/
def selectQ (q : Qry) (args : List Arg) (sep : String) : Except Unit Qry :=
  (args2str args sep).map fun r => { q with select := r }

/-- Model of `_Qry.where`. -/
def whereQ (q : Qry) (args : List Arg) : Except Unit Qry :=
  (args2str args "\n    and ").map fun r => { q with where_ := r }

/-- Model of `_Qry.group_by`. -/
def groupByQ (q : Qry) (args : List Arg) : Except Unit Qry :=
  (args2str args ",").map fun r => { q with group_by := r }

/-- Model of `_Qry.having`. -/
def havingQ (q : Qry) (args : List Arg) : Except Unit Qry :=
  (args2str args "\n    and ").map fun r => { q with having := r }

/-- Model of `_Qry.order_by`. -/
def orderByQ (q : Qry) (args : List Arg) : Except Unit Qry :=
  (args2str args ",").map fun r => { q with order_by := r }

/-- Model of `_Qry.sql`: set the raw override. -/
def sqlQ (q : Qry) (s : String) : Qry :=
  { q with sql := some s }

/-- Rendering of a possibly absent value inside a Python f-string. -/
def fmtPyOpt : Option String → String
  | some s => s
  | none => "None"

/-- Model of `_Qry.join`: the rendered clause is accumulated onto any
existing join clause, newline separated. -/
def joinQ (q : Qry) (sch_tbl_nme : String) (args : List Arg) (how : String) :
    Except Unit Qry :=
  (args2str args "\n    and ").map fun onArg =>
    let cls := how ++ " join " ++ sch_tbl_nme ++ "\n    on " ++ fmtPyOpt onArg
    { q with join := some (match q.join with
        | some j => j ++ "\n" ++ cls
        | none => cls) }

/-- Model of `_Qry.case`: positional fragments are merged with the
condition mapping entries, zero merged fragments raise, a single fragment
shorter than 35 characters renders single-line, anything else renders the
multi-line block form; the clause is appended to the select field, which
defaults to a star. -/
def caseQ (q : Qry) (col : String) (args0 : List String)
    (cond : List (String × String)) (els : String) : Except Unit Qry :=
  let args := args0 ++ cond.map fun p => p.1 ++ " then " ++ p.2
  match args with
  | [] => Except.error ()
  | a :: rest =>
    let cls :=
      if rest.length = 0 ∧ a.length < 35 then
        "\n    ,case when " ++ a ++ " else " ++ els ++ " end as " ++ col
      else
        "\n    ,case" ++ "\n        when "
          ++ String.intercalate "\n        when " (a :: rest)
          ++ "\n        else " ++ els ++ "\n    end as " ++ col
    Except.ok { q with select := some ((match q.select with
      | none => "*"
      | some s => s) ++ cls) }

/-- Model of `_Qry.str`, the two-phase composer: without a summary query
the rendered text is returned as is; with one, the rendered text is
re-indented and wrapped in a with block named x, and the summary query is
appended. -/
def strQry (q : Qry) (sum_qry : Option String) : String :=
  let qry := makeQry q
  match sum_qry with
  | some s =>
    let t := pyReplace qry "\n" "\n    "
    let w := "with x as (\n" ++ ("    " ++ t ++ "\n") ++ ")"
    w ++ "\n" ++ s
  | none => qry

/-- Summary query chosen by `_Qry.head`. -/
def headSummary (q : Qry) : String :=
  if q.dialect = Dialect.oc then
    "select * from x where rownum <= 5"
  else
    "select * from x limit 5"

/-- Summary query chosen by `_Qry.top`. -/
def topSummary (q : Qry) : String :=
  if q.dialect = Dialect.oc then
    "select * from x where rownum<=1"
  else
    "select * from x limit 1"

/-- Character class `[a-zA-Z0-9]` of the lookahead in `_Db._bind_mods`. -/
def isWordChar (c : Char) : Bool :=
  c.isAlpha || c.isDigit

/-- Boundary test of the lookahead `(?=[^a-zA-Z0-9]|$)`: end of text or a
character outside `[a-zA-Z0-9]`. -/
def boundaryOk : List Char → Bool
  | [] => true
  | c :: _ => !(isWordChar c)

/-- Fuel-driven scanner behind `substOne`: replaces every occurrence of a
colon followed by the placeholder name and a boundary, left to right,
continuing after each replacement as `re.sub` does. -/
def substFuel (name rep : List Char) : Nat → List Char → List Char
  | _, [] => []
  | 0, l => l
  | fuel + 1, c :: rest =>
    if c == ':' && startsWithL rest name && boundaryOk (rest.drop name.length) then
      rep ++ substFuel name rep fuel (rest.drop name.length)
    else
      c :: substFuel name rep fuel rest

/-- Model of one `re.sub` call in `_Db._bind_mods` for a single
placeholder name. -/
def substOne (sql : String) (name rep : String) : String :=
  ⟨substFuel name.data rep.data sql.data.length sql.data⟩

/-- Model of `_Db._bind_mods`: the substitutions are applied one name at a
time, in mapping order. -/
def bindMods (sql : String) (mods : List (String × String)) : String :=
  mods.foldl (fun s p => substOne s p.1 p.2) sql

/-- Heap model of one clause-setting method call: the receiver is looked
up in the store, the method body produces a fresh record (Python
`__copy__` followed by a field assignment), which is allocated at a fresh
position; the returned handle is the fresh position. -/
def heapOp (store : List Qry) (i : Nat) (f : Qry → Except Unit Qry) :
    Except Unit (List Qry × Nat) :=
  (f (store.getD i qryDefault)).map fun r => (store ++ [r], store.length)

/-- Frame property of one heap operation: the handle returned by a
successful call is distinct from the receiver handle, and the receiver
record and its rendered text are unchanged. -/
def frameOk (store : List Qry) (i : Nat) (f : Qry → Except Unit Qry) : Prop :=
  ∀ s j, heapOp store i f = Except.ok (s, j) →
    j ≠ i ∧ s.getD i qryDefault = store.getD i qryDefault ∧
    makeQry (s.getD i qryDefault) = makeQry (store.getD i qryDefault)

/-- Written from the words of claim C1: the projection clause and source
clause joined by a space exactly when the projection rendered to a bare
select star, then joins, predicate, grouping, group predicate and
ordering, each with its prefix, each empty when absent. -/
def specAssembly (q : Qry) : String :=
  let proj := match q.select with
    | some p => "select " ++ p
    | none => "select *"
  let src := match q.from_ with
    | some s => "from " ++ s
    | none => "from test"
  proj ++ (if proj = "select *" then " " else "\n") ++ src
    ++ (match q.join with | some j => "\n" ++ j | none => "")
    ++ (match q.where_ with | some w => "\nwhere " ++ w | none => "")
    ++ (match q.group_by with | some g => "\ngroup by " ++ g | none => "")
    ++ (match q.having with | some h => "\nhaving " ++ h | none => "")
    ++ (match q.order_by with | some o => "\norder by " ++ o | none => "")

/-- Written from the words of claim C6: the dialect-specific row-limiting
template at a given row count. -/
def specRowLimit (d : Dialect) (n : Nat) : String :=
  if d = Dialect.oc then
    "select * from x where rownum <= " ++ toString n
  else
    "select * from x limit " ++ toString n

/-- Written from the words of claim C4: four spaces inserted after every
newline. -/
def specIndent (s : String) : String :=
  ⟨s.data.foldr
    (fun c acc => if c = '\n' then '\n' :: ' ' :: ' ' :: ' ' :: ' ' :: acc else c :: acc)
    []⟩

/-- Concrete fragment set with every structural clause set, used to
exhibit clause omission after a zero-argument reset. -/
def qryFull : Qry :=
  ⟨some "t", some "a", none, some "w", some "g", some "h", some "o", none, Dialect.lt⟩

theorem heapOp_frame (store : List Qry) (i : Nat) (h : i < store.length)
    (f : Qry → Except Unit Qry) : frameOk store i f := by
  intro s j hr
  unfold heapOp at hr
  cases hf : f (store.getD i qryDefault) with
  | error e =>
    rw [hf] at hr
    simp [Except.map] at hr
  | ok r =>
    rw [hf] at hr
    simp only [Except.map, Except.ok.injEq, Prod.mk.injEq] at hr
    obtain ⟨hs, hj⟩ := hr
    subst hs
    subst hj
    refine ⟨by omega, ?_, ?_⟩
    · exact List.getD_append store [r] qryDefault i h
    · rw [List.getD_append store [r] qryDefault i h]

/-- C2: with the raw override set, rendering returns the override text
exactly, ignoring every other field and applying no dialect
post-processing. -/
theorem c2_raw_override (q : Qry) (s : String) (h : q.sql = some s) :
    makeQry q = s := by
  simp [makeQry, h]

/-- Witness for C2 at an oracle-dialect fragment set whose raw override
contains the word select, which the hint rewriting would otherwise
change. -/
theorem c2_raw_override_witness :
    makeQry ⟨some "u", some "v", none, none, none, none, none,
        some "select a from b", Dialect.oc⟩
      = "select a from b" :=
  c2_raw_override _ "select a from b" rfl

/-- C8: placeholder substitution replaces a colon-name occurrence only
when followed by a non-alphanumeric character or the end of the text,
leaves unmatched placeholders verbatim, and in particular maps
:var_:var1 with var bound to A and var1 bound to B onto A_B. -/
theorem c8_substitution_boundary :
    bindMods ":var_:var1" [("var", "A"), ("var1", "B")] = "A_B" ∧
    substOne ":var1" "var" "A" = ":var1" ∧
    substOne ":var" "var" "A" = "A" ∧
    substOne ":varx" "var" "A" = ":varx" ∧
    substOne "where x = :var and y = :var" "var" "7" = "where x = 7 and y = 7" := by
  decide

/-- C9: the case builder fails exactly when the merged positional
fragments and condition mapping entries are empty, and with at least one
fragment it never fails. -/
theorem c9_case_error (q : Qry) (col els : String) (args0 : List String)
    (cond : List (String × String)) :
    caseQ q col args0 cond els = Except.error () ↔ args0 = [] ∧ cond = [] := by
  cases args0 with
  | nil =>
    cases cond with
    | nil => simp [caseQ]
    | cons p ps => simp [caseQ]
  | cons a as => simp [caseQ]

/-- C10: a zero-argument call of select, where, group_by, having or
order_by resets the corresponding field to absent, and the rendered text
then omits that clause, with the projection falling back to a bare select
star. -/
theorem c10_zero_arg_reset (q : Qry) (sep : String) :
    selectQ q [] sep = Except.ok { q with select := none } ∧
    whereQ q [] = Except.ok { q with where_ := none } ∧
    groupByQ q [] = Except.ok { q with group_by := none } ∧
    havingQ q [] = Except.ok { q with having := none } ∧
    orderByQ q [] = Except.ok { q with order_by := none } ∧
    makeQry { qryFull with select := none }
      = "select * from t\nwhere w\ngroup by g\nhaving h\norder by o" ∧
    makeQry { qryFull with where_ := none }
      = "select a\nfrom t\ngroup by g\nhaving h\norder by o" ∧
    makeQry { qryFull with group_by := none }
      = "select a\nfrom t\nwhere w\nhaving h\norder by o" ∧
    makeQry { qryFull with having := none }
      = "select a\nfrom t\nwhere w\ngroup by g\norder by o" ∧
    makeQry { qryFull with order_by := none }
      = "select a\nfrom t\nwhere w\ngroup by g\nhaving h" :=
  ⟨rfl, rfl, rfl, rfl, rfl, rfl, rfl, rfl, rfl, rfl⟩

/-- Counterexample to C1 as stated: under the oracle dialect the rendered
text of an all-default fragment set carries the parallel hint, so it is
not the bare clause assembly. -/
theorem c1_claim_counterexample :
    makeQry ⟨none, none, none, none, none, none, none, none, Dialect.oc⟩
      ≠ specAssembly ⟨none, none, none, none, none, none, none, none, Dialect.oc⟩ := by
  decide

/-- C1 amended: for every fragment set without a raw override, the
rendered text equals the clause assembly described by the claim when the
dialect is not the oracle one, and equals that assembly with every
occurrence of select rewritten to the hinted form when it is. -/
theorem c1_render_assembly (q : Qry) (h1 : q.sql = none) :
    (q.dialect ≠ Dialect.oc → makeQry q = specAssembly q) ∧
    (q.dialect = Dialect.oc →
      makeQry q = pyReplace (specAssembly q) "select" "select /*+PARALLEL (4)*/") := by
  constructor
  · intro h2
    simp only [makeQry, specAssembly, makeCls, h1]
    rw [if_neg h2]
  · intro h2
    simp only [makeQry, specAssembly, makeCls, h1]
    rw [if_pos h2]

/-- Witness for C1 amended at a sqlite-dialect and an oracle-dialect
fragment set, each with a source, a projection and a predicate. -/
theorem c1_render_assembly_witness :
    (makeQry ⟨some "t", some "a, b", none, some "x > 0", none, none, none, none, Dialect.lt⟩
      = specAssembly ⟨some "t", some "a, b", none, some "x > 0", none, none, none, none, Dialect.lt⟩) ∧
    (makeQry ⟨some "t", some "a, b", none, some "x > 0", none, none, none, none, Dialect.oc⟩
      = pyReplace
          (specAssembly ⟨some "t", some "a, b", none, some "x > 0", none, none, none, none, Dialect.oc⟩)
          "select" "select /*+PARALLEL (4)*/") :=
  ⟨(c1_render_assembly ⟨some "t", some "a, b", none, some "x > 0", none, none, none, none, Dialect.lt⟩
      rfl).1 (by decide),
   (c1_render_assembly ⟨some "t", some "a, b", none, some "x > 0", none, none, none, none, Dialect.oc⟩
      rfl).2 rfl⟩

theorem allStrs_map (ss : List String) : allStrs (ss.map Arg.str) = some ss := by
  induction ss with
  | nil => rfl
  | cons a as ih => simp [allStrs, ih]

theorem args2str_strs (sep : String) (ss : List String) (h : 2 ≤ ss.length) :
    args2str (ss.map Arg.str) sep = Except.ok (some (String.intercalate sep ss)) := by
  match ss with
  | a :: b :: rest =>
    have hall : allStrs (Arg.str a :: Arg.str b :: List.map Arg.str rest)
        = some (a :: b :: rest) := allStrs_map (a :: b :: rest)
    simp [args2str, hall]
  | [] => simp at h
  | [a] => simp at h

/-- C5: the normalizer maps zero arguments to absent, one string argument
to itself, one sequence argument and two or more string arguments to the
separator-joined text, so the three call shapes produce identical text
and a one-element sequence joins without a trailing separator. -/
theorem c5_normalizer (sep s : String) (l ss : List String) (q : Qry)
    (h : 2 ≤ ss.length) :
    args2str [] sep = Except.ok none ∧
    args2str [Arg.str s] sep = Except.ok (some s) ∧
    args2str [Arg.ls l] sep = Except.ok (some (String.intercalate sep l)) ∧
    args2str (ss.map Arg.str) sep = Except.ok (some (String.intercalate sep ss)) ∧
    selectQ q [Arg.str "a,b,c"] "," = selectQ q [Arg.str "a", Arg.str "b", Arg.str "c"] "," ∧
    selectQ q [Arg.str "a,b,c"] "," = selectQ q [Arg.ls ["a", "b", "c"]] "," ∧
    args2str [Arg.ls ["a"]] "," = Except.ok (some "a") :=
  ⟨rfl, rfl, rfl, args2str_strs sep ss h, rfl, rfl, rfl⟩

/-- Witness for C5 at the comma separator and the three-element list of
the claim. -/
theorem c5_normalizer_witness :
    args2str [] "," = Except.ok none ∧
    args2str [Arg.str "x"] "," = Except.ok (some "x") ∧
    args2str [Arg.ls ["a", "b"]] "," = Except.ok (some (String.intercalate "," ["a", "b"])) ∧
    args2str (["a", "b", "c"].map Arg.str) ","
      = Except.ok (some (String.intercalate "," ["a", "b", "c"])) ∧
    selectQ qryDefault [Arg.str "a,b,c"] ","
      = selectQ qryDefault [Arg.str "a", Arg.str "b", Arg.str "c"] "," ∧
    selectQ qryDefault [Arg.str "a,b,c"] ","
      = selectQ qryDefault [Arg.ls ["a", "b", "c"]] "," ∧
    args2str [Arg.ls ["a"]] "," = Except.ok (some "a") :=
  c5_normalizer "," "x" ["a", "b"] ["a", "b", "c"] qryDefault (by decide)

/-- Counterexample to C6 as stated: under the oracle dialect the first-row
summary text is not the first-N-rows row-limiting template at one row,
because the spacing around the comparison differs. -/
theorem c6_claim_counterexample :
    topSummary ⟨none, none, none, none, none, none, none, none, Dialect.oc⟩
      ≠ specRowLimit Dialect.oc 1 := by
  decide

/-- C6 amended: head uses the dialect-specific row-limiting template at
five rows under all dialects; top uses the template at one row under the
generic and limit dialects, while under the oracle dialect its text has
no spaces around the comparison. -/
theorem c6_pagination (q qo : Qry) (h : q.dialect ≠ Dialect.oc)
    (ho : qo.dialect = Dialect.oc) :
    headSummary q = "select * from x limit 5" ∧
    headSummary qo = "select * from x where rownum <= 5" ∧
    headSummary q = specRowLimit q.dialect 5 ∧
    headSummary qo = specRowLimit qo.dialect 5 ∧
    topSummary q = "select * from x limit 1" ∧
    topSummary q = specRowLimit q.dialect 1 ∧
    topSummary qo = "select * from x where rownum<=1" := by
  refine ⟨?_, ?_, ?_, ?_, ?_, ?_, ?_⟩ <;>
    (simp [headSummary, topSummary, specRowLimit, h, ho] <;> decide)

/-- Witness for C6 amended at the generic and oracle dialects. -/
theorem c6_pagination_witness :
    headSummary qryDefault = "select * from x limit 5" ∧
    headSummary ⟨none, none, none, none, none, none, none, none, Dialect.oc⟩
      = "select * from x where rownum <= 5" ∧
    headSummary qryDefault = specRowLimit qryDefault.dialect 5 ∧
    headSummary ⟨none, none, none, none, none, none, none, none, Dialect.oc⟩
      = specRowLimit (Qry.dialect ⟨none, none, none, none, none, none, none, none, Dialect.oc⟩) 5 ∧
    topSummary qryDefault = "select * from x limit 1" ∧
    topSummary qryDefault = specRowLimit qryDefault.dialect 1 ∧
    topSummary ⟨none, none, none, none, none, none, none, none, Dialect.oc⟩
      = "select * from x where rownum<=1" :=
  c6_pagination qryDefault ⟨none, none, none, none, none, none, none, none, Dialect.oc⟩
    (by decide) rfl

/-- C3: every clause-setting operation, applied through the store to a
valid receiver handle, hands back (on success) a handle distinct from the
receiver, while the receiver record and its rendered text are unchanged. -/
theorem c3_immutability (store : List Qry) (i : Nat) (f s tbl how sep col els : String)
    (args : List Arg) (args0 : List String) (cond : List (String × String))
    (h : i < store.length) :
    frameOk store i (fun q => Except.ok (from_Q q f)) ∧
    frameOk store i (fun q => selectQ q args sep) ∧
    frameOk store i (fun q => caseQ q col args0 cond els) ∧
    frameOk store i (fun q => joinQ q tbl args how) ∧
    frameOk store i (fun q => whereQ q args) ∧
    frameOk store i (fun q => groupByQ q args) ∧
    frameOk store i (fun q => havingQ q args) ∧
    frameOk store i (fun q => orderByQ q args) ∧
    frameOk store i (fun q => Except.ok (sqlQ q s)) :=
  ⟨heapOp_frame store i h _, heapOp_frame store i h _, heapOp_frame store i h _,
   heapOp_frame store i h _, heapOp_frame store i h _, heapOp_frame store i h _,
   heapOp_frame store i h _, heapOp_frame store i h _, heapOp_frame store i h _⟩

/-- Witness for C3 at a one-element store with concrete arguments for each
operation. -/
theorem c3_immutability_witness :
    frameOk [qryDefault] 0 (fun q => Except.ok (from_Q q "t")) ∧
    frameOk [qryDefault] 0 (fun q => selectQ q [Arg.str "a"] ",") ∧
    frameOk [qryDefault] 0 (fun q => caseQ q "c" ["x = 1 then 1"] [] "NULL") ∧
    frameOk [qryDefault] 0 (fun q => joinQ q "u" [Arg.str "a"] "left") ∧
    frameOk [qryDefault] 0 (fun q => whereQ q [Arg.str "a"]) ∧
    frameOk [qryDefault] 0 (fun q => groupByQ q [Arg.str "a"]) ∧
    frameOk [qryDefault] 0 (fun q => havingQ q [Arg.str "a"]) ∧
    frameOk [qryDefault] 0 (fun q => orderByQ q [Arg.str "a"]) ∧
    frameOk [qryDefault] 0 (fun q => Except.ok (sqlQ q "select 1")) :=
  c3_immutability [qryDefault] 0 "t" "select 1" "u" "left" "," "c" "NULL"
    [Arg.str "a"] ["x = 1 then 1"] [] (by decide)

theorem replaceFuel_newline (fuel : Nat) :
    ∀ l : List Char, l.length ≤ fuel →
      replaceFuel ['\n'] ['\n', ' ', ' ', ' ', ' '] fuel l
        = l.foldr (fun c acc =>
            if c = '\n' then '\n' :: ' ' :: ' ' :: ' ' :: ' ' :: acc else c :: acc) [] := by
  induction fuel with
  | zero =>
    intro l hl
    have hnil : l = [] := List.eq_nil_of_length_eq_zero (Nat.le_zero.mp hl)
    subst hnil
    rfl
  | succ n ih =>
    intro l hl
    cases l with
    | nil => rfl
    | cons c rest =>
      have hrest : rest.length ≤ n := Nat.le_of_succ_le_succ hl
      by_cases hc : c = '\n'
      · subst hc
        have hcond : (decide ((1 : Nat) > 0) && startsWithL ('\n' :: rest) ['\n']) = true := by
          simp [startsWithL]
        simp only [replaceFuel, List.length_singleton, Nat.sub_self, List.drop_zero,
          List.foldr_cons]
        rw [hcond, if_pos rfl, ih rest hrest]
        simp
      · have hcond : (decide ((1 : Nat) > 0) && startsWithL (c :: rest) ['\n']) = false := by
          simp [startsWithL, hc]
        simp only [replaceFuel, List.length_singleton, Nat.sub_self, List.drop_zero,
          List.foldr_cons]
        rw [hcond, if_neg Bool.false_ne_true, ih rest hrest, if_neg hc]

theorem pyReplace_newline (s : String) :
    pyReplace s "\n" "\n    " = specIndent s :=
  congrArg String.mk (replaceFuel_newline s.data.length s.data (Nat.le_refl _))

theorem strQry_some (q : Qry) (t : String) :
    strQry q (some t)
      = "with x as (\n    " ++ pyReplace (makeQry q) "\n" "\n    " ++ "\n)\n" ++ t := by
  show ("with x as (\n" ++ ("    " ++ pyReplace (makeQry q) "\n" "\n    " ++ "\n") ++ ")")
      ++ "\n" ++ t = _
  apply String.ext
  simp only [String.data_append, List.append_assoc]
  rfl

/-- C4: composing with a summary query wraps the rendered text, with four
spaces inserted after every newline, inside a with block named x and
appends the summary query; composing with no summary query returns the
rendered text itself. -/
theorem c4_cte_wrapping (q : Qry) (t : String) :
    strQry q (some t)
      = "with x as (\n    " ++ specIndent (makeQry q) ++ "\n)\n" ++ t ∧
    strQry q none = makeQry q := by
  refine ⟨?_, rfl⟩
  rw [strQry_some, pyReplace_newline]

theorem caseQ_merge (q : Qry) (col els frag : String) (args0 : List String)
    (cond : List (String × String))
    (h : args0 ++ cond.map (fun p => p.1 ++ " then " ++ p.2) = [frag]) :
    caseQ q col args0 cond els = caseQ q col [frag] [] els := by
  unfold caseQ
  rw [h]
  rfl

theorem caseQ_single (q : Qry) (col els frag : String) :
    caseQ q col [frag] [] els
      = Except.ok { q with select := some ((match q.select with
          | none => "*"
          | some s => s)
          ++ (if frag.length < 35 then
                "\n    ,case when " ++ frag ++ " else " ++ els ++ " end as " ++ col
              else
                "\n    ,case" ++ "\n        when " ++ frag
                  ++ "\n        else " ++ els ++ "\n    end as " ++ col)) } := by
  by_cases hl : frag.length < 35
  · simp [caseQ, hl]
  · simp [caseQ, hl, String.intercalate, String.intercalate.go]

/-- C7: with exactly one merged fragment, a length strictly below 35
renders the single-line case clause appended after the line separator,
and a length of 35 or more renders the multi-line block form. -/
theorem c7_case_threshold (q : Qry) (col els frag : String) (args0 : List String)
    (cond : List (String × String))
    (h : args0 ++ cond.map (fun p => p.1 ++ " then " ++ p.2) = [frag]) :
    (frag.length < 35 →
      caseQ q col args0 cond els = Except.ok { q with select := some (q.select.getD "*"
        ++ "\n    " ++ (",case when " ++ frag ++ " else " ++ els ++ " end as " ++ col)) }) ∧
    (35 ≤ frag.length →
      caseQ q col args0 cond els = Except.ok { q with select := some (q.select.getD "*"
        ++ ("\n    ,case" ++ "\n        when " ++ frag
          ++ "\n        else " ++ els ++ "\n    end as " ++ col)) }) := by
  rw [caseQ_merge q col els frag args0 cond h, caseQ_single]
  constructor
  · intro hl
    rw [if_pos hl]
    refine congrArg Except.ok (congrArg (fun x => { q with select := some x }) ?_)
    cases hs : q.select with
    | none =>
      apply String.ext
      simp only [Option.getD_none, String.data_append, List.append_assoc]
      rfl
    | some s =>
      apply String.ext
      simp only [Option.getD_some, String.data_append, List.append_assoc]
      rfl
  · intro hg
    rw [if_neg (by omega)]
    refine congrArg Except.ok (congrArg (fun x => { q with select := some x }) ?_)
    cases hs : q.select <;> rfl

/-- Witness for C7 at a fragment of exactly 34 characters, which renders
single-line. -/
theorem c7_case_threshold_witness :
    ("abcdefghijklmnopqrstuvwxyz12345678" : String).length < 35 ∧
    caseQ qryDefault "c" ["abcdefghijklmnopqrstuvwxyz12345678"] [] "NULL"
      = Except.ok { qryDefault with select := some (qryDefault.select.getD "*"
          ++ "\n    " ++ (",case when " ++ "abcdefghijklmnopqrstuvwxyz12345678"
          ++ " else " ++ "NULL" ++ " end as " ++ "c")) } :=
  ⟨by decide,
    (c7_case_threshold qryDefault "c" "NULL" "abcdefghijklmnopqrstuvwxyz12345678"
      ["abcdefghijklmnopqrstuvwxyz12345678"] [] rfl).1 (by decide)⟩
